import Mathlib

/-!
Verification of the SwanContents projects mixin and the SparkConnector kernel extension.

Shallow embedding of `swancontents/filemanager/projects_mixin.py` and
`sparkconnector/connector.py`.

Conventions of the embedding:

* Filesystem paths are lists of path components (`List String`): the component
  list of the `/`-separated path string.  API paths are relative (already
  `strip('/')`-ed); OS paths are `root ++ apiPath` where `root` is the component
  list of the manager's `root_dir` (an absolute path, so its first component is
  the empty string).  Python's `path.replace(root_dir + '/', '', 1)` is modelled
  by dropping the `root` prefix when it is a strict prefix; this is exact
  whenever the textual `root_dir + '/'` occurs only at the front of the path,
  which holds for every path the manager builds.
* The storage backend is a flat association list from OS paths to entry kinds
  (`file`/`dir`); `lookup` returns the most recently written entry.
* Host-framework methods that are not part of this repository's sources
  (the inherited storage manager's operations, `proj_url_checker`, the network,
  `git`, `kinit`) are modelled from the spec and marked as such; everything
  else is translated line by line from the source.
-/

set_option autoImplicit false

namespace Swan

/-- Default of the `swan_default_folder` traitlet (`projects_mixin.py:20`). -/
def swanDefaultFolder : String := "SWAN_projects"

/-- Default of the `swan_default_file` traitlet (`projects_mixin.py:24`). -/
def swanDefaultFile : String := ".swanproject"

/-- Kind of a filesystem entry. -/
inductive FEntry where
  | file
  | dir
deriving DecidableEq, Repr

/-- Flat filesystem: association list from OS paths (component lists) to entry
kinds.  The head of the list shadows later entries with the same path. -/
structure FS where
  entries : List (List String × FEntry)
deriving DecidableEq, Repr

/-- First entry registered at `p`, if any. -/
def lookupEntry : List (List String × FEntry) → List String → Option FEntry
  | [], _ => none
  | (q, e) :: rest, p => if q = p then some e else lookupEntry rest p

def FS.lookup (fs : FS) (p : List String) : Option FEntry :=
  lookupEntry fs.entries p

/-- Embeds `self._is_dir(os_path)` of the storage backend. -/
def FS.isDir (fs : FS) (p : List String) : Prop :=
  fs.lookup p = some .dir

/-- Embeds `self._is_file(os_path)` of the storage backend. -/
def FS.isFile (fs : FS) (p : List String) : Prop :=
  fs.lookup p = some .file

/-- Embeds `self.exists` of the storage backend, on an OS path. -/
def FS.existsOs (fs : FS) (p : List String) : Prop :=
  (fs.lookup p).isSome

instance (fs : FS) (p : List String) : Decidable (fs.isDir p) :=
  inferInstanceAs (Decidable (_ = _))

instance (fs : FS) (p : List String) : Decidable (fs.isFile p) :=
  inferInstanceAs (Decidable (_ = _))

instance (fs : FS) (p : List String) : Decidable (fs.existsOs p) :=
  inferInstanceAs (Decidable (_ = true))

/-- Register an entry at `p`, shadowing any previous entry there. -/
def FS.insert (fs : FS) (p : List String) (e : FEntry) : FS :=
  ⟨(p, e) :: fs.entries⟩

/-- Errors an operation of the mixin can surface: a tornado `web.HTTPError`
with its status code and message, or an uncaught Python exception. -/
inductive Err where
  /-- Raised as `web.HTTPError(code, msg)`. -/
  | http (code : Nat) (msg : String)
  /-- A Python `TypeError` escaping the handler (surfaces as a 500). -/
  | typeError
  /-- A Python `NameError` escaping the handler (surfaces as a 500). -/
  | nameError
deriving DecidableEq, Repr

/-- The HTTP status code of a failed result, if the failure is an `HTTPError`. -/
def httpCode {α : Type} : Except Err α → Option Nat
  | .error (.http c _) => some c
  | _ => none

/-- Python `s.endswith(pat)` (over the character list, so that it evaluates
inside the kernel). -/
def strEndsWith (s pat : String) : Bool :=
  pat.toList.isSuffixOf s.toList

/-- Python `s.startswith(pat)`. -/
def strStartsWith (s pat : String) : Bool :=
  pat.toList.isPrefixOf s.toList

/-- Python `s[n:]`. -/
def strDrop (s : String) (n : Nat) : String :=
  ⟨s.toList.drop n⟩

/-- Python `s.split('/')` over the character list; `""` splits to `[""]`. -/
def splitSlash : List Char → List (List Char)
  | [] => [[]]
  | c :: rest =>
    match splitSlash rest with
    | [] => [[c]]
    | h :: t => if c = '/' then [] :: h :: t else (c :: h) :: t

/-- Component list of a `/`-separated string (Python `str.split('/')`). -/
def splitPath (s : String) : List String :=
  (splitSlash s.toList).map fun cs => ⟨cs⟩

/-- Embeds `path.replace(root_dir + '/', '', 1)` on component lists: drop the root
prefix when `root_dir + '/'` is a prefix of the path string, i.e. when `root`
is a strict prefix of the component list. -/
def stripRootSlash (root p : List String) : List String :=
  if root ≠ [] ∧ root.isPrefixOf p ∧ root.length < p.length then
    p.drop root.length
  else p

/-- Loop of `_get_project_path` (`projects_mixin.py:40-43`): walk down the
remaining folders accumulating `path_to_project`, returning the first prefix
that directly contains the sentinel file. -/
def projLoop (fs : FS) (root : List String) :
    List String → List String → Option (List String)
  | _, [] => none
  | acc, f :: rest =>
    let acc' := acc ++ [f]
    if fs.isFile (root ++ acc' ++ [swanDefaultFile]) then some acc'
    else projLoop fs root acc' rest

/-- Embeds `ProjectsMixin._get_project_path` (`projects_mixin.py:32-45`).
`.error ()` models raising `InvalidProject`. -/
def getProjectPath (fs : FS) (root : List String) (path : List String) :
    Except Unit (Option (List String)) :=
  match stripRootSlash root path with
  | [] => .error ()
  | f0 :: rest =>
    if f0 = swanDefaultFolder then .ok (projLoop fs root [f0] rest)
    else .error ()

/-- Embeds `ProjectsMixin._is_swan_root_folder` (`projects_mixin.py:47-54`). -/
def isSwanRootFolder (root : List String) (path : List String) : Bool :=
  match stripRootSlash root path with
  | [a, _] => a = swanDefaultFolder
  | _ => false

/-- Embeds `ProjectsMixin._contains_swan_folder_name` (`projects_mixin.py:56-64`).
The replaced pattern is `root_dir + '/' + swan_default_folder + '/'`, i.e.
`root ++ [swanDefaultFolder]` followed by at least one more component. -/
def containsSwanFolderName (root : List String) (path : List String) : Bool :=
  let folders :=
    if root ≠ [] ∧ (root ++ [swanDefaultFolder]).isPrefixOf path ∧
        root.length + 1 < path.length then
      path.drop (root.length + 1)
    else path
  folders.contains swanDefaultFolder

/-- A contents-API model, restricted to the fields the mixin manipulates.
`content` abstracts both directory listings and file bodies. -/
structure CModel where
  mtype : String
  path : List String
  isProject : Option Bool
  project : Option (List String)
  content : Option (List (List String))
deriving DecidableEq, Repr

/-- Entries directly below `osp` (the listing a directory model carries). -/
def childList (fs : FS) (osp : List String) : List (List String) :=
  fs.entries.filterMap fun qe =>
    if qe.1.length = osp.length + 1 ∧ osp.isPrefixOf qe.1 then some qe.1 else none

/-- Modelled from the spec: the inherited storage manager's `_dir_model`
builds a `directory` model for the path, with a listing when `content` is
requested and no project-related fields. -/
def baseDirModel (fs : FS) (root path : List String) (content : Bool) : CModel :=
  { mtype := "directory"
    path := path
    isProject := none
    project := none
    content := if content then some (childList fs (root ++ path)) else none }

/-- Embeds `ProjectsMixin._dir_model` (`projects_mixin.py:66-79`): the inherited
directory model plus `is_project = False`, and the enclosing project path when
the path lies inside a project. -/
def dirModel (fs : FS) (root path : List String) (content : Bool) : CModel :=
  let m := { baseDirModel fs root path content with isProject := some false }
  match getProjectPath fs root path with
  | .ok (some pp) => { m with project := some pp }
  | _ => m

/-- Embeds `ProjectsMixin._proj_model` (`projects_mixin.py:81-90`): the inherited
directory model plus `is_project = True`. -/
def projModel (fs : FS) (root path : List String) (content : Bool) : CModel :=
  { baseDirModel fs root path content with isProject := some true }

/-- Modelled from the spec: the inherited storage manager's model for a file
path — a `notebook`/`file` model with no project fields (the file body is
abstracted). -/
def fileModel (path : List String) (content : Bool) : CModel :=
  { mtype := if strEndsWith (path.getLastD "") ".ipynb" then "notebook" else "file"
    path := path
    isProject := none
    project := none
    content := if content then some [] else none }

/-- Modelled from the spec: the inherited storage manager's `get`, which
dispatches on the entry kind at the path (directory models go through the
dynamically dispatched `_dir_model`, i.e. the mixin's override) and raises
404 on a missing path.  The `type`/`format` arguments only select content
details not modelled here. -/
def superGet (fs : FS) (root path : List String) (content : Bool)
    (type : Option String) (format : Option String) : Except Err CModel :=
  if fs.isDir (root ++ path) then .ok (dirModel fs root path content)
  else if fs.isFile (root ++ path) then .ok (fileModel path content)
  else .error (.http 404 ("No such file or directory: " ++ String.intercalate "/" path))

/-- Tail of `ProjectsMixin.get` (`projects_mixin.py:124-135`), applied to the
state `fs1` left after the conditional creation of the projects root: classify
the path as project or delegate to the inherited `get`. -/
def getBody (fs1 : FS) (root path : List String) (content : Bool)
    (type : Option String) (format : Option String) : Except Err (FS × CModel) :=
  if fs1.isDir (root ++ path) ∧ fs1.isFile (root ++ path ++ [swanDefaultFile]) then
    if type ≠ none ∧ type ≠ some "project" ∧ type ≠ some "directory" then
      .error (.http 400 (String.intercalate "/" path ++ " is a project"))
    else
      .ok (fs1, projModel fs1 root path content)
  else
    match superGet fs1 root path content type format with
    | .ok m => .ok (fs1, m)
    | .error e => .error e

/-- Embeds `ProjectsMixin.get` (`projects_mixin.py:111-135`).  The input `path` is the
component list of the already-`strip('/')`-ed API path; the `if` passed to
`getBody` is the `_mkdir` of a missing projects root (`projects_mixin.py:121-122`). -/
def get (fs : FS) (root path : List String) (content : Bool)
    (type : Option String) (format : Option String) : Except Err (FS × CModel) :=
  if path ≠ [swanDefaultFolder] ∧ ¬ fs.existsOs (root ++ path) then
    .error (.http 404 ("No such file or directory: " ++ String.intercalate "/" path))
  else
    getBody (if path = [swanDefaultFolder] ∧ ¬ fs.isDir (root ++ path) then
               fs.insert (root ++ path) .dir
             else fs) root path content type format

/-- Model passed to `save`/`update`, restricted to the fields the mixin reads.
`content` abstracts the file/notebook body; `mpath` is the model's `path`
entry, which the inherited `update` uses as rename destination. -/
structure SaveModel where
  chunk : Option Int := none
  mtype : Option String := none
  content : Option String := none
  mpath : Option (List String) := none
deriving DecidableEq, Repr

/-- Modelled from the spec: the inherited storage manager's `_save_directory`
creates the directory when the path does not exist yet. -/
def saveDirectoryBase (fs : FS) (osp : List String) : FS :=
  if fs.existsOs osp then fs else fs.insert osp .dir

/-- Modelled from the spec: the inherited storage manager's `_save_file`
(also used for `_save_notebook`) writes a file at the OS path; the body is
abstracted away. -/
def saveFileBase (fs : FS) (osp : List String) : FS :=
  fs.insert osp .file

/-- Embeds `ProjectsMixin._save_project` (`projects_mixin.py:92-109`): remember
whether the path existed, delegate to `_save_directory`, and write the hidden
sentinel file when the path did not exist before. -/
def saveProjectFs (fs : FS) (osp : List String) : FS :=
  if fs.existsOs osp then saveDirectoryBase fs osp
  else saveFileBase (saveDirectoryBase fs osp) (osp ++ [swanDefaultFile])

/-- The type dispatch of `save` (`projects_mixin.py:160-185`): run the save
routine selected by the model type on the OS path, or raise. -/
def saveDispatch (fs : FS) (root : List String) (t : String) (osp : List String) :
    Except Err FS :=
  if t = "project" then
    if isSwanRootFolder root osp then .ok (saveProjectFs fs osp)
    else .error (.http 400 "You can only create projects inside Swan Projects")
  else if t = "notebook" then .ok (saveFileBase fs osp)
  else if t = "file" then .ok (saveFileBase fs osp)
  else if t = "directory" then .ok (saveDirectoryBase fs osp)
  else .error (.http 400 ("Unhandled contents type: " ++ t))

/-- Embeds `ProjectsMixin.save` (`projects_mixin.py:137-205`).  The chunked branch
calls `super().save(self, model, path)` — one positional argument too many for
the inherited method, a `TypeError` (`.error .typeError`) before any delegate
runs.  The input `path` is the component list of the stripped API path; on
success the saved model is re-read through `get` with `content=False`. -/
def save (fs : FS) (root : List String) (model : SaveModel) (path : List String) :
    Except Err (FS × CModel) :=
  if model.chunk ≠ none then .error .typeError
  else
    match model.mtype with
    | none => .error (.http 400 "No file type provided")
    | some t =>
      if model.content = none ∧ t ≠ "directory" ∧ t ≠ "project" then
        .error (.http 400 "No file content provided")
      else if containsSwanFolderName root (root ++ path) then
        .error (.http 400 ("The name " ++ swanDefaultFolder ++ " is restricted"))
      else
        match saveDispatch fs root t (root ++ path) with
        | .error e => .error e
        | .ok fs2 => get fs2 root path false none none

/-- Rename the subtree rooted at `src` to `dst` (every entry with `src` as
prefix moves). -/
def renameTree (fs : FS) (src dst : List String) : FS :=
  ⟨fs.entries.map fun pe =>
    if src.isPrefixOf pe.1 then (dst ++ pe.1.drop src.length, pe.2) else pe⟩

/-- Copy the subtree rooted at `src` to `dst`, keeping the original. -/
def copyTree (fs : FS) (src dst : List String) : FS :=
  ⟨(fs.entries.filterMap fun pe =>
      if src.isPrefixOf pe.1 then some (dst ++ pe.1.drop src.length, pe.2) else none)
    ++ fs.entries⟩

/-- Modelled from the spec: the storage manager's `_move` relocates a subtree,
copying instead of moving when `preserve` is set. -/
def moveBase (fs : FS) (origin dest : List String) (preserve : Bool) : FS :=
  if preserve then copyTree fs origin dest else renameTree fs origin dest

/-- Modelled from the spec: the inherited `update` contract renames `path` to
the model's `path` entry (no-op when equal), refusing to overwrite an existing
destination, then returns the moved entry's model without content. -/
def superUpdate (fs : FS) (root : List String) (model : SaveModel)
    (path : List String) : Except Err (FS × CModel) :=
  let newPath := model.mpath.getD path
  if newPath = path then get fs root path false none none
  else if fs.existsOs (root ++ newPath) then
    .error (.http 409 "File already exists")
  else
    get (renameTree fs (root ++ path) (root ++ newPath)) root newPath false none none

/-- Embeds `ProjectsMixin.update` (`projects_mixin.py:240-246`): reject paths whose
OS path contains the restricted folder name, then delegate. -/
def update (fs : FS) (root : List String) (model : SaveModel)
    (path : List String) : Except Err (FS × CModel) :=
  if containsSwanFolderName root (root ++ path) then
    .error (.http 400 ("The name " ++ swanDefaultFolder ++ " is restricted"))
  else superUpdate fs root model path

/-- Embeds `dest + str(count)`: Python appends the digits to the path string, i.e. to
the last component. -/
def appendNum (p : List String) (n : Nat) : List String :=
  p.dropLast ++ [p.getLastD "" ++ toString n]

/-- The `while self._is_dir(dest + str(count))` loop of `move_folder`
(`projects_mixin.py:253-257`), with explicit fuel; fuel larger than the number
of directories always suffices. -/
def findFreeName (fs : FS) (dest : List String) : Nat → Nat → List String
  | 0, count => appendNum dest count
  | fuel + 1, count =>
    if fs.isDir (appendNum dest count) then findFreeName fs dest fuel (count + 1)
    else appendNum dest count

/-- Embeds `ProjectsMixin.move_folder` (`projects_mixin.py:249-264`): pick a fresh
name if the destination exists, move, and drop the sentinel file into the
destination so it becomes a project. -/
def moveFolder (fs : FS) (origin dest : List String) (preserve : Bool) :
    FS × List String :=
  let d := if fs.isDir dest then findFreeName fs dest (fs.entries.length + 1) 1
           else dest
  let fs1 := moveBase fs origin d preserve
  (saveFileBase fs1 (d ++ [swanDefaultFile]), d)

/-- Embeds `os.path.basename` for the URLs and paths `download` handles. -/
def basename (s : String) : String := (splitPath s).getLastD ""

/-- Index of the last `'.'` in the characters, if any. -/
def lastDotIdx (cs : List Char) : Option Nat :=
  ((cs.enum.filter fun ci => ci.2 = '.').map fun ci => ci.1).getLast?

/-- Embeds `os.path.splitext(s)[0]`: everything before the last dot, except that a
name consisting of leading dots only is kept whole. -/
def splitextRoot (s : String) : String :=
  match lastDotIdx s.toList with
  | none => s
  | some i => if (s.toList.take i).all (· = '.') then s else ⟨s.toList.take i⟩

/-- Drop the root prefix from an OS path
(`model['path'].replace(self.root_dir, '').strip('/')`, for paths where the
root occurs once, at the front). -/
def relToRoot (root p : List String) : List String :=
  if root.isPrefixOf p then p.drop root.length else p

/-- The model `download` returns: a `type` and a root-relative `path`. -/
structure DlModel where
  dtype : String
  dpath : List String
deriving DecidableEq, Repr

/-- External collaborators of `download`: the outcome of `git clone`, the
URL classifiers of `proj_url_checker` (not part of these sources, modelled
from the spec), the name advertised by a shared link, and the fresh temporary
directory `tempfile.mkdtemp()` returns. -/
structure DlEnv where
  gitCloneOk : Bool
  isFileOnEos : String → Bool
  isCernboxSharedLink : String → Bool
  eosUsername : String → String
  pathWithoutEosBase : String → List String
  sharedName : String
  tmpDir : List String

/-- Embeds `ProjectsMixin.download` (`projects_mixin.py:266-362`).  Every filesystem
(local paths, EOS, the user tree) lives in the single flat `FS`.  The
compressed-download branch (`projects_mixin.py:342-346`) references the
`zipfile` module, which `projects_mixin.py` never imports: reaching it raises
a Python `NameError`, modelled as `.error .nameError`. -/
def download (fs : FS) (env : DlEnv) (root : List String) (url : String) :
    Except Err (FS × DlModel) :=
  if strEndsWith url ".git" then
    if env.gitCloneOk then
      let repoName := splitextRoot (basename url)
      let dest := root ++ [swanDefaultFolder, repoName]
      let (fs2, d) := moveFolder fs env.tmpDir dest false
      .ok (fs2, ⟨"directory", relToRoot root d⟩)
    else
      .error (.http 400 ("It was not possible to clone the repo " ++ url))
  else if env.isFileOnEos url then
    let filePath := strDrop url 6
    if env.eosUsername filePath = env.eosUsername (String.intercalate "/" root) then
      .ok (fs, ⟨"file", relToRoot root (env.pathWithoutEosBase filePath)⟩)
    else
      let fileName := (splitPath filePath).getLastD ""
      let fs1 := saveFileBase fs (env.tmpDir ++ [fileName])
      let dest := root ++ [swanDefaultFolder, splitextRoot fileName]
      let (fs2, d) := moveFolder fs1 env.tmpDir dest false
      .ok (fs2, ⟨"file", relToRoot root (d ++ [fileName])⟩)
  else if strStartsWith url "local:" then
    let path := strDrop url 6
    let fileName := (splitPath path).getLastD ""
    if fs.isDir (splitPath path) then
      let dest := root ++ [swanDefaultFolder, fileName]
      let (fs2, d) := moveFolder fs (splitPath path) dest true
      .ok (fs2, ⟨"directory", relToRoot root d⟩)
    else if fs.isFile (splitPath path) then
      let fs1 := saveFileBase fs (env.tmpDir ++ [fileName])
      let dest := root ++ [swanDefaultFolder, splitextRoot fileName]
      let (fs2, d) := moveFolder fs1 env.tmpDir dest false
      .ok (fs2, ⟨"file", relToRoot root (d ++ [fileName])⟩)
    else
      .error (.http 404 ("File or directory does not exist: " ++ path))
  else
    let fileName := if env.isCernboxSharedLink url then env.sharedName
                    else basename url
    if strEndsWith fileName ".zip" then
      .error .nameError
    else
      let fs1 := saveFileBase fs (env.tmpDir ++ [fileName])
      let dest := root ++ [swanDefaultFolder, splitextRoot fileName]
      let (fs2, d) := moveFolder fs1 env.tmpDir dest false
      .ok (fs2, ⟨"file", relToRoot root (d ++ [fileName])⟩)

end Swan

namespace SparkConn

/-- A message sent to the frontend over the comm channel (`connector.py:32-42`):
a `msgtype` plus, for `send_error`, an `error` field. -/
structure Msg where
  msgtype : String
  error : Option String := none
deriving DecidableEq, Repr

/-- The Python value bound to `swan_spark_conf` in the user namespace, as far
as `handle_comm_message` can distinguish it: missing, falsy (`if conf:` treats
it as absent), truthy but not a `SparkConf`, or a `SparkConf` (always truthy —
`SparkConf` defines no `__bool__`). -/
inductive NsVal where
  | absent
  | falsyNonConf
  | truthyNonConf
  | sparkConf
deriving DecidableEq, Repr

/-- Mutable state of the `SparkConnector` singleton plus the user namespace:
the `connected` flag, the `needs_auth` flag fixed at construction, the
`swan_spark_conf` binding, and whether `sc`/`spark` were pushed. -/
structure SCState where
  connected : Bool
  needsAuth : Bool
  swanSparkConf : NsVal
  pushedSession : Bool
deriving DecidableEq, Repr

/-- Embeds `SparkConnector.__init__` (`connector.py:18-30`): `connected` starts
false, `needs_auth` iff the cluster name from the environment is `"nxcals"`;
the namespace binding is whatever the host kernel already holds. -/
def initState (clusterName : Option String) (ns : NsVal) : SCState :=
  { connected := false
    needsAuth := clusterName = some "nxcals"
    swanSparkConf := ns
    pushedSession := false }

/-- Outcomes of the external collaborators of `handle_comm_message`: the
`kinit` exit status, the `klist -s` exit status, the driver-port probe, and
whether `configure`/`SparkContext` construction raises (with the exception
text). -/
structure SCEnv where
  kinitOk : Bool
  klistOk : Bool
  portInUse : Bool
  sessionRaises : Bool
  errText : String
deriving DecidableEq, Repr

/-- A comm message from the frontend: its `action` and, for auth, the
password. -/
inductive SCAction where
  | auth (password : String)
  | connect
  | unknown (s : String)
deriving DecidableEq, Repr

/-- Observable events of one `handle_comm_message` call: messages sent to the
frontend and calls into the external tools (`kinit`, `klist -s`,
`SparkContext(conf)`). -/
inductive SCEvent where
  | sent (m : Msg)
  | kinit (password : String)
  | klist
  | attemptSession
deriving DecidableEq, Repr

def authErrorMsg : String := "Error obtaining the ticket. Is the password correct?"

def noCredsMsg : String := "No valid credentials provided."

def portInUseMsg : String :=
  "You already opened a Spark connection in this session. Please close it first if you want to open a new one."

def badConfMsg : String :=
  "There is already a \"swan_spark_conf\" variable defined and is not of type SparkConf."

/-- Embeds `SparkConnector.handle_comm_message` (`connector.py:45-109`), as a pure
step function from state and environment outcomes to the new state and the
emitted events, translated branch by branch. -/
def handleCommMessage (env : SCEnv) (st : SCState) (a : SCAction) :
    SCState × List SCEvent :=
  match a with
  | .auth pw =>
    (st, [.kinit pw,
          .sent (if env.kinitOk then { msgtype := "sparkconn-config" }
                 else { msgtype := "sparkconn-auth", error := some authErrorMsg })])
  | .connect =>
    if st.connected then
      (st, [.sent { msgtype := "sparkconn-connected" }])
    else if st.needsAuth && !env.klistOk then
      (st, [.klist, .sent { msgtype := "sparkconn-auth", error := some noCredsMsg }])
    else
      let pre := if st.needsAuth then [SCEvent.klist] else []
      if env.portInUse then
        (st, pre ++ [.sent { msgtype := "sparkconn-config", error := some portInUseMsg }])
      else if st.swanSparkConf = .truthyNonConf then
        (st, pre ++ [.sent { msgtype := "sparkconn-config", error := some badConfMsg }])
      else if env.sessionRaises then
        (st, pre ++ [.attemptSession,
                     .sent { msgtype := "sparkconn-config", error := some env.errText }])
      else
        ({ st with connected := true, swanSparkConf := .sparkConf, pushedSession := true },
         pre ++ [.attemptSession, .sent { msgtype := "sparkconn-connected" }])
  | .unknown _ => (st, [])

/-- The frontend-visible messages among a list of events. -/
def sentMsgs (evs : List SCEvent) : List Msg :=
  evs.filterMap fun e => match e with
    | .sent m => some m
    | _ => none

/-- A message the `LogReader` thread sends for a log line
(`connector.py:250-253`). -/
structure LogMsg where
  msgtype : String
  msg : String
deriving DecidableEq, Repr

/-- Python `str.strip()`: remove leading and trailing whitespace. -/
def pyStrip (s : String) : String :=
  ⟨((s.toList.dropWhile Char.isWhitespace).reverse.dropWhile Char.isWhitespace).reverse⟩

/-- One iteration of the `follow` loop (`connector.py:258-265`): the
`connected` flag as sampled at the top of the loop, and the line `readline`
returned (`none` models the empty read that sleeps and retries). -/
structure Poll where
  connected : Bool
  line : Option String
deriving DecidableEq, Repr

/-- Embeds `LogReader.run` composed with `follow` (`connector.py:245-265`) over a
trace of loop iterations: while the sampled flag is false, every line read is
forwarded stripped as a `sparkconn-action-log` message; the first iteration
that samples the flag true ends the generator, the `for` loop, and the
thread. -/
def followRun : List Poll → List LogMsg
  | [] => []
  | p :: rest =>
    if p.connected then []
    else
      match p.line with
      | none => followRun rest
      | some l => { msgtype := "sparkconn-action-log", msg := pyStrip l } :: followRun rest

end SparkConn

namespace Swan

theorem lookup_insert_self (fs : FS) (p : List String) (e : FEntry) :
    (fs.insert p e).lookup p = some e := by
  simp [FS.insert, FS.lookup, lookupEntry]

theorem lookup_insert_ne (fs : FS) (p q : List String) (e : FEntry) (h : p ≠ q) :
    (fs.insert p e).lookup q = fs.lookup q := by
  simp [FS.insert, FS.lookup, lookupEntry, h]

theorem append_singleton_ne (p : List String) (x : String) : p ++ [x] ≠ p := by
  intro h
  have := congrArg List.length h
  simp at this

theorem dirModel_isProject (fs : FS) (root path : List String) (c : Bool) :
    (dirModel fs root path c).isProject = some false := by
  unfold dirModel
  cases getProjectPath fs root path with
  | ok o => cases o <;> rfl
  | error e => rfl

theorem dirModel_content_none (fs : FS) (root path : List String) :
    (dirModel fs root path false).content = none := by
  unfold dirModel
  cases getProjectPath fs root path with
  | ok o => cases o <;> rfl
  | error e => rfl

theorem superGet_content_none (fs : FS) (root path : List String)
    (type format : Option String) (m : CModel)
    (h : superGet fs root path false type format = .ok m) : m.content = none := by
  unfold superGet at h
  split at h
  · simp only [Except.ok.injEq] at h
    rw [← h]
    exact dirModel_content_none fs root path
  · split at h
    · simp only [Except.ok.injEq] at h
      rw [← h]
      rfl
    · simp at h

theorem superGet_not_project (fs : FS) (root path : List String) (content : Bool)
    (type format : Option String) (m : CModel)
    (h : superGet fs root path content type format = .ok m) :
    m.isProject ≠ some true := by
  unfold superGet at h
  split at h
  · simp only [Except.ok.injEq] at h
    rw [← h, dirModel_isProject]
    simp
  · split at h
    · simp only [Except.ok.injEq] at h
      rw [← h]
      simp [fileModel]
    · simp at h

theorem superGet_dir (fs : FS) (root path : List String) (content : Bool)
    (type format : Option String) (h : fs.isDir (root ++ path)) :
    superGet fs root path content type format = .ok (dirModel fs root path content) := by
  unfold superGet
  rw [if_pos h]

theorem getBody_proj (fs1 : FS) (root path : List String) (content : Bool)
    (type format : Option String)
    (hproj : fs1.isDir (root ++ path) ∧ fs1.isFile (root ++ path ++ [swanDefaultFile]))
    (hty : ¬ (type ≠ none ∧ type ≠ some "project" ∧ type ≠ some "directory")) :
    getBody fs1 root path content type format =
      .ok (fs1, projModel fs1 root path content) := by
  unfold getBody
  rw [if_pos hproj, if_neg hty]

theorem getBody_proj_badtype (fs1 : FS) (root path : List String) (content : Bool)
    (type format : Option String)
    (hproj : fs1.isDir (root ++ path) ∧ fs1.isFile (root ++ path ++ [swanDefaultFile]))
    (hty : type ≠ none ∧ type ≠ some "project" ∧ type ≠ some "directory") :
    httpCode (getBody fs1 root path content type format) = some 400 := by
  unfold getBody
  rw [if_pos hproj, if_pos hty]
  rfl

theorem getBody_super (fs1 : FS) (root path : List String) (content : Bool)
    (type format : Option String)
    (hnp : ¬ (fs1.isDir (root ++ path) ∧ fs1.isFile (root ++ path ++ [swanDefaultFile]))) :
    getBody fs1 root path content type format =
      (superGet fs1 root path content type format).map (fun m => (fs1, m)) := by
  unfold getBody
  rw [if_neg hnp]
  cases superGet fs1 root path content type format <;> rfl

theorem getBody_content_none (fs1 : FS) (root path : List String)
    (type format : Option String) (fs2 : FS) (m : CModel)
    (h : getBody fs1 root path false type format = .ok (fs2, m)) : m.content = none := by
  unfold getBody at h
  split at h
  · split at h
    · simp at h
    · simp only [Except.ok.injEq, Prod.mk.injEq] at h
      rw [← h.2]
      rfl
  · split at h
    · next m' heq =>
      simp only [Except.ok.injEq, Prod.mk.injEq] at h
      rw [← h.2]
      exact superGet_content_none _ root path type format m' heq
    · simp at h

theorem getBody_not_project (fs1 : FS) (root path : List String) (content : Bool)
    (type format : Option String) (fs2 : FS) (m : CModel)
    (hnp : ¬ (fs1.isDir (root ++ path) ∧ fs1.isFile (root ++ path ++ [swanDefaultFile])))
    (h : getBody fs1 root path content type format = .ok (fs2, m)) :
    m.isProject ≠ some true := by
  rw [getBody_super fs1 root path content type format hnp] at h
  cases hsg : superGet fs1 root path content type format with
  | ok m' =>
    rw [hsg] at h
    simp only [Except.map, Except.ok.injEq, Prod.mk.injEq] at h
    rw [← h.2]
    exact superGet_not_project fs1 root path content type format m' hsg
  | error e =>
    rw [hsg] at h
    simp [Except.map] at h

theorem get_content_none (fs : FS) (root path : List String)
    (type format : Option String) (fs2 : FS) (m : CModel)
    (h : get fs root path false type format = .ok (fs2, m)) : m.content = none := by
  unfold get at h
  split at h
  · simp at h
  · exact getBody_content_none _ root path type format fs2 m h

/-- C10: `get` on the SWAN projects root never raises 404 — when the
`swan_default_folder` does not yet exist as a directory (and, the filesystem
being well formed, no sentinel file dangles beneath it), `get` creates the
directory and returns its directory model; `get` on any other non-existent
path raises HTTP 404. -/
theorem get_swan_root_autocreate (fs : FS) (root : List String)
    (content : Bool) (type format : Option String)
    (hnd : ¬ fs.isDir (root ++ [swanDefaultFolder]))
    (hnf : ¬ fs.isFile (root ++ [swanDefaultFolder] ++ [swanDefaultFile])) :
    get fs root [swanDefaultFolder] content none format =
      .ok (fs.insert (root ++ [swanDefaultFolder]) .dir,
           dirModel (fs.insert (root ++ [swanDefaultFolder]) .dir) root
             [swanDefaultFolder] content) ∧
    ∀ path, path ≠ [swanDefaultFolder] → ¬ fs.existsOs (root ++ path) →
      httpCode (get fs root path content type format) = some 404 := by
  constructor
  · have hcond : ¬ ([swanDefaultFolder] ≠ [swanDefaultFolder] ∧
        ¬ fs.existsOs (root ++ [swanDefaultFolder])) := by
      intro h
      exact h.1 rfl
    have hfs1 : (if ([swanDefaultFolder] : List String) = [swanDefaultFolder] ∧
          ¬ fs.isDir (root ++ [swanDefaultFolder])
        then fs.insert (root ++ [swanDefaultFolder]) .dir else fs) =
        fs.insert (root ++ [swanDefaultFolder]) .dir := if_pos ⟨rfl, hnd⟩
    have hdir : (fs.insert (root ++ [swanDefaultFolder]) .dir).isDir
        (root ++ [swanDefaultFolder]) := lookup_insert_self fs _ .dir
    have hsent : ¬ (fs.insert (root ++ [swanDefaultFolder]) .dir).isFile
        (root ++ [swanDefaultFolder] ++ [swanDefaultFile]) := by
      unfold FS.isFile
      rw [lookup_insert_ne fs _ _ .dir (Ne.symm (append_singleton_ne _ _))]
      exact hnf
    unfold get
    rw [if_neg hcond, hfs1,
        getBody_super _ root [swanDefaultFolder] content none format
          (by intro h; exact hsent h.2),
        superGet_dir _ root [swanDefaultFolder] content none format hdir]
    rfl
  · intro path h1 h2
    unfold get
    rw [if_pos ⟨h1, h2⟩]
    rfl

/-- Closed instance of `get_swan_root_autocreate` with its hypotheses
discharged at concrete inputs. -/
theorem get_swan_root_autocreate_witness :
    get ⟨[]⟩ ["", "home", "user"] ["SWAN_projects"] false none none =
      .ok ((⟨[]⟩ : FS).insert ["", "home", "user", "SWAN_projects"] .dir,
           dirModel ((⟨[]⟩ : FS).insert ["", "home", "user", "SWAN_projects"] .dir)
             ["", "home", "user"] ["SWAN_projects"] false) ∧
    httpCode (get (⟨[]⟩ : FS) ["", "home", "user"] ["nope"] false none none) =
      some 404 := by
  have h := get_swan_root_autocreate ⟨[]⟩ ["", "home", "user"] false none none
    (by decide) (by decide)
  exact ⟨by simpa using h.1, h.2 ["nope"] (by decide) (by decide)⟩

/-- C1: for every existing path (in a state where the projects root, if it is
the path asked for, is already a directory), `get` returns a model with
`is_project = True` exactly when the path is a directory directly containing
the hidden sentinel file; for every other existing path it returns the
inherited storage manager's model (whose `is_project` is never `True`); and
requesting a project with a `type` other than `None`, `'project'` or
`'directory'` raises HTTP 400. -/
theorem get_project_classification (fs : FS) (root path : List String)
    (content : Bool) (type format : Option String)
    (hex : fs.existsOs (root ++ path))
    (hswan : path = [swanDefaultFolder] → fs.isDir (root ++ path)) :
    ((fs.isDir (root ++ path) ∧ fs.isFile (root ++ path ++ [swanDefaultFile])) →
        ((type = none ∨ type = some "project" ∨ type = some "directory") →
           get fs root path content type format =
             .ok (fs, projModel fs root path content) ∧
           (projModel fs root path content).isProject = some true) ∧
        ((type ≠ none ∧ type ≠ some "project" ∧ type ≠ some "directory") →
           httpCode (get fs root path content type format) = some 400)) ∧
    (¬ (fs.isDir (root ++ path) ∧ fs.isFile (root ++ path ++ [swanDefaultFile])) →
        get fs root path content type format =
          (superGet fs root path content type format).map (fun m => (fs, m)) ∧
        ∀ fs2 m, get fs root path content type format = .ok (fs2, m) →
          m.isProject ≠ some true) := by
  have hcond : ¬ (path ≠ [swanDefaultFolder] ∧ ¬ fs.existsOs (root ++ path)) := by
    intro h
    exact h.2 hex
  have hfs1 : (if path = [swanDefaultFolder] ∧ ¬ fs.isDir (root ++ path)
      then fs.insert (root ++ path) .dir else fs) = fs := by
    by_cases hp : path = [swanDefaultFolder]
    · exact if_neg (fun h => h.2 (hswan hp))
    · exact if_neg (fun h => hp h.1)
  constructor
  · intro hproj
    constructor
    · intro hty
      have hty' : ¬ (type ≠ none ∧ type ≠ some "project" ∧ type ≠ some "directory") := by
        rcases hty with h | h | h <;> simp [h]
      constructor
      · unfold get
        rw [if_neg hcond, hfs1, getBody_proj fs root path content type format hproj hty']
      · rfl
    · intro hty
      unfold get
      rw [if_neg hcond, hfs1]
      exact getBody_proj_badtype fs root path content type format hproj hty
  · intro hnp
    constructor
    · unfold get
      rw [if_neg hcond, hfs1]
      exact getBody_super fs root path content type format hnp
    · intro fs2 m h
      unfold get at h
      rw [if_neg hcond, hfs1] at h
      exact getBody_not_project fs root path content type format fs2 m hnp h

/-- Closed instance of `get_project_classification` with its hypotheses
discharged at concrete inputs. -/
theorem get_project_classification_witness :
    get ⟨[(["", "u", "SWAN_projects", "P1"], .dir),
          (["", "u", "SWAN_projects", "P1", ".swanproject"], .file)]⟩ ["", "u"]
        ["SWAN_projects", "P1"] false none none =
      .ok (⟨[(["", "u", "SWAN_projects", "P1"], .dir),
             (["", "u", "SWAN_projects", "P1", ".swanproject"], .file)]⟩,
           projModel ⟨[(["", "u", "SWAN_projects", "P1"], .dir),
             (["", "u", "SWAN_projects", "P1", ".swanproject"], .file)]⟩ ["", "u"]
             ["SWAN_projects", "P1"] false) :=
  (((get_project_classification
      ⟨[(["", "u", "SWAN_projects", "P1"], .dir),
        (["", "u", "SWAN_projects", "P1", ".swanproject"], .file)]⟩ ["", "u"]
      ["SWAN_projects", "P1"] false none none (by decide)
      (by intro h; simp at h)).1 (by decide)).1 (Or.inl rfl)).1

/-- C2: `save` of a model without a `chunk` key raises HTTP 400 when the model
has no type; raises HTTP 400 when it has no content and its type is neither
`directory` nor `project`; raises HTTP 400 for every type outside
`{project, directory, notebook, file}`; for each of the four recognized types
(the earlier checks passing) dispatches to the corresponding save routine and
re-reads the result through `get` with `content=False`; and every successful
result is a model without content. -/
theorem save_checks_and_dispatch (fs : FS) (root : List String) (model : SaveModel)
    (path : List String) :
    (model.chunk = none → model.mtype = none →
        httpCode (save fs root model path) = some 400) ∧
    (∀ t, model.chunk = none → model.mtype = some t → model.content = none →
        t ≠ "directory" → t ≠ "project" →
        httpCode (save fs root model path) = some 400) ∧
    (∀ t, model.chunk = none → model.mtype = some t →
        t ≠ "project" → t ≠ "directory" → t ≠ "notebook" → t ≠ "file" →
        httpCode (save fs root model path) = some 400) ∧
    (model.chunk = none → containsSwanFolderName root (root ++ path) = false →
      (model.mtype = some "notebook" → model.content ≠ none →
          save fs root model path =
            get (saveFileBase fs (root ++ path)) root path false none none) ∧
      (model.mtype = some "file" → model.content ≠ none →
          save fs root model path =
            get (saveFileBase fs (root ++ path)) root path false none none) ∧
      (model.mtype = some "directory" →
          save fs root model path =
            get (saveDirectoryBase fs (root ++ path)) root path false none none) ∧
      (model.mtype = some "project" → isSwanRootFolder root (root ++ path) = true →
          save fs root model path =
            get (saveProjectFs fs (root ++ path)) root path false none none)) ∧
    (∀ fs2 m, save fs root model path = .ok (fs2, m) → m.content = none) := by
  refine ⟨?_, ?_, ?_, ?_, ?_⟩
  · intro h1 h2
    simp [save, h1, h2, httpCode]
  · intro t h1 h2 h3 h4 h5
    simp [save, h1, h2, h3, h4, h5, httpCode]
  · intro t h1 h2 h3 h4 h5 h6
    by_cases hc : model.content = none
    · simp [save, h1, h2, hc, h3, h4, httpCode]
    · by_cases hr : containsSwanFolderName root (root ++ path)
      · simp [save, h1, h2, hc, hr, httpCode]
      · simp [save, saveDispatch, h1, h2, hc, hr, h3, h4, h5, h6, httpCode]
  · intro h1 hres
    refine ⟨?_, ?_, ?_, ?_⟩
    · intro hty hcontent
      simp [save, saveDispatch, h1, hty, hcontent, hres]
    · intro hty hcontent
      simp [save, saveDispatch, h1, hty, hcontent, hres]
    · intro hty
      simp [save, saveDispatch, h1, hty, hres]
    · intro hty hroot
      simp [save, saveDispatch, h1, hty, hres, hroot]
  · intro fs2 m h
    unfold save at h
    split at h
    · simp at h
    · split at h
      · simp at h
      · split at h
        · simp at h
        · split at h
          · simp at h
          · split at h
            · simp at h
            · next fs3 heq =>
              exact get_content_none fs3 root path none none fs2 m h

/-- Closed instance of `save_checks_and_dispatch` with its hypotheses
discharged at concrete inputs. -/
theorem save_checks_and_dispatch_witness :
    httpCode (save (⟨[]⟩ : FS) ["", "u"] { mtype := some "bogus", content := some "" }
        ["x"]) = some 400 ∧
    save (⟨[]⟩ : FS) ["", "u"] { mtype := some "file", content := some "body" } ["x"] =
      get (saveFileBase (⟨[]⟩ : FS) (["", "u"] ++ ["x"])) ["", "u"] ["x"]
        false none none :=
  ⟨(save_checks_and_dispatch ⟨[]⟩ ["", "u"]
      { mtype := some "bogus", content := some "" } ["x"]).2.2.1 "bogus" rfl rfl
      (by decide) (by decide) (by decide) (by decide),
   ((save_checks_and_dispatch ⟨[]⟩ ["", "u"]
       { mtype := some "file", content := some "body" } ["x"]).2.2.2.1 rfl
       (by decide)).2.1 rfl (by decide)⟩

theorem isPrefixOf_append_self (l t : List String) : l.isPrefixOf (l ++ t) = true := by
  induction l with
  | nil => cases t <;> rfl
  | cons a as ih => simp [List.isPrefixOf, ih]

theorem stripRootSlash_append (root p : List String) (hr : root ≠ []) (hp : p ≠ []) :
    stripRootSlash root (root ++ p) = p := by
  unfold stripRootSlash
  rw [if_pos ⟨hr, by rw [isPrefixOf_append_self], by
        have : 0 < p.length := List.length_pos.mpr hp
        simp
        omega⟩]
  exact List.drop_left root p

theorem isSwanRootFolder_one_below (root : List String) (name : String)
    (hr : root ≠ []) :
    isSwanRootFolder root (root ++ [swanDefaultFolder, name]) = true := by
  unfold isSwanRootFolder
  rw [stripRootSlash_append root _ hr (by simp)]
  simp

theorem containsSwan_one_below (root : List String) (name : String) (hr : root ≠ [])
    (hn : name ≠ swanDefaultFolder) :
    containsSwanFolderName root (root ++ [swanDefaultFolder, name]) = false := by
  unfold containsSwanFolderName
  have hassoc : root ++ [swanDefaultFolder, name] =
      (root ++ [swanDefaultFolder]) ++ [name] := by
    simp
  have hlen : (root ++ [swanDefaultFolder]).length = root.length + 1 := by
    simp
  rw [if_pos ⟨hr, by rw [hassoc, isPrefixOf_append_self], by simp⟩]
  rw [hassoc, ← hlen, List.drop_left]
  simp [List.contains, hn, Ne.symm hn]

theorem saveProjectFs_creates (fs : FS) (osp : List String)
    (h : ¬ fs.existsOs osp) :
    (saveProjectFs fs osp).isDir osp ∧
    (saveProjectFs fs osp).isFile (osp ++ [swanDefaultFile]) := by
  unfold saveProjectFs
  rw [if_neg h]
  unfold saveDirectoryBase
  rw [if_neg h]
  constructor
  · unfold FS.isDir saveFileBase
    rw [lookup_insert_ne _ _ _ _ (append_singleton_ne osp swanDefaultFile)]
    exact lookup_insert_self fs osp .dir
  · unfold FS.isFile saveFileBase
    exact lookup_insert_self _ _ .file

theorem saveProjectFs_of_exists (fs : FS) (osp : List String)
    (h : fs.existsOs osp) : saveProjectFs fs osp = fs := by
  unfold saveProjectFs saveDirectoryBase
  rw [if_pos h, if_pos h]

/-- C8 (amended): a `project` model can be saved only one level below the SWAN
projects folder: for every path that is not exactly one level below
`swan_default_folder`, `save` of a `project` model raises HTTP 400; and for
every path `swan_default_folder/name` with `name` not itself the restricted
folder name, `save` runs `_save_project` (then re-reads the model): when the
path did not exist before, the directory and the hidden sentinel file inside
it are created, and when it did, the filesystem is left unchanged. -/
theorem save_project_swan_root_only (fs : FS) (root : List String)
    (model : SaveModel) (hr : root ≠ []) (hchunk : model.chunk = none)
    (hty : model.mtype = some "project") :
    (∀ path, isSwanRootFolder root (root ++ path) = false →
        httpCode (save fs root model path) = some 400) ∧
    (∀ name, name ≠ swanDefaultFolder →
        save fs root model [swanDefaultFolder, name] =
          get (saveProjectFs fs (root ++ [swanDefaultFolder, name])) root
            [swanDefaultFolder, name] false none none ∧
        (¬ fs.existsOs (root ++ [swanDefaultFolder, name]) →
           (saveProjectFs fs (root ++ [swanDefaultFolder, name])).isDir
               (root ++ [swanDefaultFolder, name]) ∧
           (saveProjectFs fs (root ++ [swanDefaultFolder, name])).isFile
               (root ++ [swanDefaultFolder, name] ++ [swanDefaultFile])) ∧
        (fs.existsOs (root ++ [swanDefaultFolder, name]) →
           saveProjectFs fs (root ++ [swanDefaultFolder, name]) = fs)) := by
  constructor
  · intro path hroot
    by_cases hres : containsSwanFolderName root (root ++ path)
    · simp [save, hchunk, hty, hres, httpCode]
    · simp [save, saveDispatch, hchunk, hty, hres, hroot, httpCode]
  · intro name hn
    have hres := containsSwan_one_below root name hr hn
    have hroot := isSwanRootFolder_one_below root name hr
    refine ⟨?_, fun hne => saveProjectFs_creates _ _ hne,
            fun hex => saveProjectFs_of_exists _ _ hex⟩
    simp [save, saveDispatch, hchunk, hty, hres, hroot]

/-- Closed instance of `save_project_swan_root_only` with its hypotheses
discharged at concrete inputs. -/
theorem save_project_swan_root_only_witness :
    httpCode (save (⟨[]⟩ : FS) ["", "u"] { mtype := some "project" }
        ["elsewhere", "P"]) = some 400 ∧
    save (⟨[]⟩ : FS) ["", "u"] { mtype := some "project" } ["SWAN_projects", "P2"] =
      get (saveProjectFs (⟨[]⟩ : FS) (["", "u"] ++ ["SWAN_projects", "P2"])) ["", "u"]
        ["SWAN_projects", "P2"] false none none :=
  ⟨(save_project_swan_root_only ⟨[]⟩ ["", "u"] { mtype := some "project" }
      (by decide) rfl rfl).1 ["elsewhere", "P"] (by decide),
   ((save_project_swan_root_only ⟨[]⟩ ["", "u"] { mtype := some "project" }
      (by decide) rfl rfl).2 "P2" (by decide)).1⟩

/-- C8 counterexample: `SWAN_projects/SWAN_projects` is exactly one level
below the SWAN projects folder, yet saving a `project` model there raises
HTTP 400 (the restricted-name check fires first) instead of creating the
directory. -/
theorem save_project_swan_root_only_cex :
    isSwanRootFolder ["", "home", "user"]
        (["", "home", "user"] ++ ["SWAN_projects", "SWAN_projects"]) = true ∧
    httpCode (save (⟨[(["", "home", "user", "SWAN_projects"], .dir)]⟩ : FS)
        ["", "home", "user"] { mtype := some "project" }
        ["SWAN_projects", "SWAN_projects"]) = some 400 := by
  decide

/-- C9 (amended): for every path whose OS path contains a component equal to
`swan_default_folder` beyond the projects-root prefix, `save` of a chunkless
model raises HTTP 400 before dispatching, a chunked `save` fails with a
`TypeError` from the malformed delegate call (so it never creates an entry
either), and `update` raises HTTP 400; `update`, however, only checks its
source path, not the rename destination in the model. -/
theorem restricted_name_rejected (fs : FS) (root : List String) (model : SaveModel)
    (path : List String)
    (hres : containsSwanFolderName root (root ++ path) = true) :
    (model.chunk = none → httpCode (save fs root model path) = some 400) ∧
    (model.chunk ≠ none → save fs root model path = .error .typeError) ∧
    httpCode (update fs root model path) = some 400 := by
  refine ⟨?_, ?_, ?_⟩
  · intro hchunk
    cases hm : model.mtype with
    | none => simp [save, hchunk, hm, httpCode]
    | some t =>
      by_cases hc : model.content = none ∧ t ≠ "directory" ∧ t ≠ "project"
      · simp [save, hchunk, hm, hc, httpCode]
      · simp [save, hchunk, hm, hc, hres, httpCode]
  · intro h
    simp [save, h]
  · simp [update, hres, httpCode]

/-- Closed instance of `restricted_name_rejected` with its hypotheses
discharged at concrete inputs. -/
theorem restricted_name_rejected_witness :
    httpCode (save (⟨[]⟩ : FS) ["", "u"]
        { mtype := some "file", content := some "" } ["a", "SWAN_projects"]) =
      some 400 ∧
    httpCode (update (⟨[]⟩ : FS) ["", "u"] { } ["a", "SWAN_projects"]) = some 400 :=
  ⟨(restricted_name_rejected ⟨[]⟩ ["", "u"]
      { mtype := some "file", content := some "" } ["a", "SWAN_projects"]
      (by decide)).1 rfl,
   (restricted_name_rejected ⟨[]⟩ ["", "u"] { } ["a", "SWAN_projects"]
      (by decide)).2.2⟩

/-- C9 counterexample: the claim as stated fails twice at concrete inputs.
A chunked save to a restricted path fails with a `TypeError` (the delegate is
called with an extra `self` argument), not HTTP 400.  And `update` checks only
its source path: renaming `f.txt` to `stuff/SWAN_projects` succeeds and
creates an entry whose path contains the restricted component. -/
theorem restricted_name_rejected_cex :
    (containsSwanFolderName ["", "home", "user"]
        (["", "home", "user"] ++ ["SWAN_projects", "x", "SWAN_projects"]) = true ∧
     save (⟨[]⟩ : FS) ["", "home", "user"]
        { chunk := some 0, mtype := some "file", content := some "" }
        ["SWAN_projects", "x", "SWAN_projects"] = .error .typeError ∧
     httpCode (save (⟨[]⟩ : FS) ["", "home", "user"]
        { chunk := some 0, mtype := some "file", content := some "" }
        ["SWAN_projects", "x", "SWAN_projects"]) ≠ some 400) ∧
    (containsSwanFolderName ["", "home", "user"]
        (["", "home", "user"] ++ ["stuff", "SWAN_projects"]) = true ∧
     containsSwanFolderName ["", "home", "user"]
        (["", "home", "user"] ++ ["f.txt"]) = false ∧
     (update (⟨[(["", "home", "user", "f.txt"], .file)]⟩ : FS) ["", "home", "user"]
         { mpath := some ["stuff", "SWAN_projects"] } ["f.txt"]).toOption.map
       (fun r => r.1.lookup (["", "home", "user"] ++ ["stuff", "SWAN_projects"])) =
       some (some .file)) :=
  ⟨⟨by decide, rfl, by decide⟩, ⟨by decide, by decide, rfl⟩⟩

/-- C3 (code bug): `download` of a plain HTTP(S) URL whose file name ends in
`.zip` reaches the decompression branch (`projects_mixin.py:342-346`), which
uses the `zipfile` module that `projects_mixin.py` never imports — a Python
`NameError` escapes instead of the model with `type` and `path` the claim
promises. -/
theorem download_zip_missing_import :
    download ⟨[]⟩
      { gitCloneOk := true, isFileOnEos := fun _ => false,
        isCernboxSharedLink := fun _ => false, eosUsername := fun _ => "",
        pathWithoutEosBase := fun _ => [], sharedName := "",
        tmpDir := ["", "tmp", "t1"] }
      ["", "home", "user"] "https://example.com/talks.zip" = .error .nameError := rfl

end Swan

namespace SparkConn

/-- C5: For every `sparkconn-action-auth` comm message, the handler pipes the
supplied password to `kinit` exactly once and sends exactly one reply —
`sparkconn-config` when `kinit` exits with status 0, and otherwise an error
reply with msgtype `sparkconn-auth` reporting a bad password; the `connected`
flag (indeed the whole state) is unchanged in both cases. -/
theorem auth_single_kinit_single_reply (env : SCEnv) (st : SCState) (pw : String) :
    handleCommMessage env st (.auth pw) =
      (st, [.kinit pw,
            .sent (if env.kinitOk then { msgtype := "sparkconn-config" }
                   else { msgtype := "sparkconn-auth", error := some authErrorMsg })]) ∧
    (handleCommMessage env st (.auth pw)).1.connected = st.connected :=
  ⟨rfl, rfl⟩

/-- C7: the handshake only moves forward — the `connected` flag starts false
at construction; a handler call on a connected state never changes the state
(so the flag is never reset); the flag flips to true only by a `connect`
action whose session creation succeeded (and which pushed the session); and a
`connect` received while already connected only replies `sparkconn-connected`,
with no `SparkContext` creation attempt. -/
theorem connected_flag_monotone :
    (∀ (cn : Option String) (ns : NsVal), (initState cn ns).connected = false) ∧
    (∀ (env : SCEnv) (st : SCState) (a : SCAction), st.connected = true →
        (handleCommMessage env st a).1 = st) ∧
    (∀ (env : SCEnv) (st : SCState) (a : SCAction), st.connected = false →
        (handleCommMessage env st a).1.connected = true →
        a = .connect ∧ env.sessionRaises = false ∧
          (handleCommMessage env st a).1.pushedSession = true ∧
          SCEvent.attemptSession ∈ (handleCommMessage env st a).2) ∧
    (∀ (env : SCEnv) (st : SCState), st.connected = true →
        handleCommMessage env st .connect =
          (st, [.sent { msgtype := "sparkconn-connected" }])) := by
  refine ⟨fun cn ns => rfl, ?_, ?_, ?_⟩
  · intro env st a h
    cases a with
    | auth pw => rfl
    | connect => simp [handleCommMessage, h]
    | unknown s => rfl
  · intro env st a h h2
    cases a with
    | auth pw => simp [handleCommMessage] at h2; simp [h] at h2
    | connect =>
      simp only [handleCommMessage, h] at h2
      by_cases hk : (st.needsAuth && !env.klistOk) = true
      · simp [hk, h] at h2
      · simp only [Bool.not_eq_true] at hk
        by_cases hp : env.portInUse = true
        · simp [hk, hp, h] at h2
        · simp only [Bool.not_eq_true] at hp
          by_cases hc : st.swanSparkConf = .truthyNonConf
          · simp [hk, hp, hc, h] at h2
          · by_cases hs : env.sessionRaises = true
            · simp [hk, hp, hc, hs, h] at h2
            · simp only [Bool.not_eq_true] at hs
              refine ⟨rfl, hs, ?_, ?_⟩ <;>
                simp [handleCommMessage, hk, hp, hc, hs, h]
    | unknown s => simp [handleCommMessage] at h2; simp [h] at h2
  · intro env st h
    simp [handleCommMessage, h]

/-- Closed instance of `connected_flag_monotone` with its hypotheses
discharged at concrete inputs. -/
theorem connected_flag_monotone_witness :
    (initState (some "nxcals") .absent).connected = false ∧
    (handleCommMessage ⟨true, true, false, false, ""⟩
        ⟨true, false, .sparkConf, true⟩ .connect).1 =
      ⟨true, false, .sparkConf, true⟩ ∧
    handleCommMessage ⟨true, true, false, false, ""⟩
        ⟨true, false, .sparkConf, true⟩ .connect =
      (⟨true, false, .sparkConf, true⟩, [.sent { msgtype := "sparkconn-connected" }]) :=
  ⟨connected_flag_monotone.1 (some "nxcals") .absent,
   connected_flag_monotone.2.1 ⟨true, true, false, false, ""⟩
     ⟨true, false, .sparkConf, true⟩ .connect rfl,
   connected_flag_monotone.2.2.2 ⟨true, true, false, false, ""⟩
     ⟨true, false, .sparkConf, true⟩ rfl⟩

/-- C4 (amended): for every `sparkconn-action-connect` received while not
connected, provided Kerberos is not required or a valid ticket exists: if the
driver port is in use, or a pre-existing *truthy* `swan_spark_conf` is not a
`SparkConf`, or session creation raises, the handler sends exactly one reply —
a structured error with msgtype `sparkconn-config` and an `error` field — and
leaves the state unchanged. -/
theorem connect_error_reply_state_unchanged (env : SCEnv) (st : SCState)
    (hc : st.connected = false)
    (hauth : st.needsAuth = false ∨ env.klistOk = true)
    (htrig : env.portInUse = true ∨ st.swanSparkConf = .truthyNonConf ∨
             env.sessionRaises = true) :
    (handleCommMessage env st .connect).1 = st ∧
    ∃ e, sentMsgs (handleCommMessage env st .connect).2 =
        [{ msgtype := "sparkconn-config", error := some e }] := by
  have hk : (st.needsAuth && !env.klistOk) = false := by
    rcases hauth with h | h <;> simp [h]
  simp only [handleCommMessage, hc, Bool.false_eq_true, if_false, hk]
  by_cases hp : env.portInUse = true
  · refine ⟨?_, portInUseMsg, ?_⟩ <;> cases hn : st.needsAuth <;> simp [hp, sentMsgs, hn]
  · simp only [Bool.not_eq_true] at hp
    by_cases hcf : st.swanSparkConf = .truthyNonConf
    · refine ⟨?_, badConfMsg, ?_⟩ <;> cases hn : st.needsAuth <;> simp [hp, hcf, sentMsgs, hn]
    · have hs : env.sessionRaises = true := by
        rcases htrig with h | h | h
        · exact absurd h (by simp [hp])
        · exact absurd h hcf
        · exact h
      refine ⟨?_, env.errText, ?_⟩ <;> cases hn : st.needsAuth <;>
        simp [hp, hcf, hs, sentMsgs, hn]

/-- Closed instance of `connect_error_reply_state_unchanged` with its
hypotheses discharged at concrete inputs. -/
theorem connect_error_reply_state_unchanged_witness :
    (handleCommMessage ⟨true, true, true, false, ""⟩
        ⟨false, false, .absent, false⟩ .connect).1 = ⟨false, false, .absent, false⟩ ∧
    ∃ e, sentMsgs (handleCommMessage ⟨true, true, true, false, ""⟩
        ⟨false, false, .absent, false⟩ .connect).2 =
        [{ msgtype := "sparkconn-config", error := some e }] :=
  connect_error_reply_state_unchanged ⟨true, true, true, false, ""⟩
    ⟨false, false, .absent, false⟩ rfl (Or.inl rfl) (Or.inl rfl)

/-- C4 counterexample: the claim as stated fails at two concrete inputs.
First, with the port in use but Kerberos required and no valid ticket, the
reply has msgtype `sparkconn-auth`, not `sparkconn-config`.  Second, a
pre-existing *falsy* `swan_spark_conf` that is not a `SparkConf` (e.g.
`swan_spark_conf = 0`) does not produce an error reply: the handler proceeds,
connects, and pushes into the user namespace, so the state does not stay
unchanged. -/
theorem connect_error_reply_cex :
    ((⟨true, false, true, false, ""⟩ : SCEnv).portInUse = true ∧
     (⟨false, true, .absent, false⟩ : SCState).connected = false ∧
     sentMsgs (handleCommMessage ⟨true, false, true, false, ""⟩
        ⟨false, true, .absent, false⟩ .connect).2 =
       [{ msgtype := "sparkconn-auth", error := some noCredsMsg }] ∧
     (∀ m ∈ sentMsgs (handleCommMessage ⟨true, false, true, false, ""⟩
        ⟨false, true, .absent, false⟩ .connect).2, m.msgtype ≠ "sparkconn-config")) ∧
    ((⟨false, false, .falsyNonConf, false⟩ : SCState).connected = false ∧
     (⟨false, false, .falsyNonConf, false⟩ : SCState).swanSparkConf ≠ .sparkConf ∧
     (handleCommMessage ⟨true, true, false, false, ""⟩
        ⟨false, false, .falsyNonConf, false⟩ .connect).1.connected = true ∧
     (handleCommMessage ⟨true, true, false, false, ""⟩
        ⟨false, false, .falsyNonConf, false⟩ .connect).1.pushedSession = true) := by
  decide

/-- C6: the log-tailing loop forwards every line read while the sampled
`connected` flag is false as a `sparkconn-action-log` message with the line
stripped of surrounding whitespace, and the first iteration that samples the
flag true ends the loop: no line read at or after that point is forwarded. -/
theorem logreader_forwards_until_connected (pre post : List Poll) (l : Option String)
    (hpre : ∀ p ∈ pre, p.connected = false) :
    followRun pre =
      pre.filterMap (fun p => p.line.map fun s =>
        { msgtype := "sparkconn-action-log", msg := pyStrip s }) ∧
    followRun (pre ++ { connected := true, line := l } :: post) =
      pre.filterMap (fun p => p.line.map fun s =>
        { msgtype := "sparkconn-action-log", msg := pyStrip s }) := by
  induction pre with
  | nil => exact ⟨rfl, by simp [followRun]⟩
  | cons p rest ih =>
    have hp : p.connected = false := hpre p (by simp)
    have ih' := ih (fun q hq => hpre q (by simp [hq]))
    cases hl : p.line with
    | none =>
      refine ⟨?_, ?_⟩ <;> simp [followRun, hp, hl, ih'.1, ih'.2]
    | some s =>
      refine ⟨?_, ?_⟩ <;> simp [followRun, hp, hl, ih'.1, ih'.2]

/-- Closed instance of `logreader_forwards_until_connected` with its
hypothesis discharged at concrete inputs. -/
theorem logreader_forwards_until_connected_witness :
    followRun [⟨false, some " a "⟩, ⟨false, none⟩, ⟨false, some "b"⟩] =
      [{ msgtype := "sparkconn-action-log", msg := "a" },
       { msgtype := "sparkconn-action-log", msg := "b" }] ∧
    followRun ([⟨false, some " a "⟩, ⟨false, none⟩, ⟨false, some "b"⟩] ++
        ⟨true, some "late"⟩ :: [⟨false, some "later"⟩]) =
      [{ msgtype := "sparkconn-action-log", msg := "a" },
       { msgtype := "sparkconn-action-log", msg := "b" }] := by
  have h := logreader_forwards_until_connected
    [⟨false, some " a "⟩, ⟨false, none⟩, ⟨false, some "b"⟩]
    [⟨false, some "later"⟩] (some "late") (by decide)
  exact ⟨h.1.trans (by decide), h.2.trans (by decide)⟩

end SparkConn
